import Mathlib

/-!
Shallow embedding of the attrition-dashboard metrics engine
(`attrition_dashboard.py`, callback `update_dashboard`) and proofs about it.

The dataset is a list of pre-cleaned employee records (ingestion — CSV
loading, date parsing, department normalisation — happens before the
engine runs and is external to it).  Every definition below translates a
concrete computation of `update_dashboard`; machine floats of the source
are modelled as rationals, pandas missing values (`NaN`/`NaT`) as
`Option`, and a dataframe as a list of records.
-/

namespace AttritionDashboard

/-- One row of the cleaned dataframe `df`.  Dates are `(year, month, day)`
triples; a missing (`NaT`) date is `none`.  `termd` is the 0/1 column
`Termd` as a boolean. -/
structure EmployeeRecord where
  empID : Nat
  employeeName : String
  department : String
  gender : String
  employmentStatus : String
  salary : Rat
  engagementScore : Option Rat
  termd : Bool
  terminationDate : Option (Int × Nat × Nat)
  hireYear : Option Int
  termReason : String
  managerName : String
deriving DecidableEq

/-- Column `TerminationYear = df["DateofTermination"].dt.year` (missing when
the date is missing). -/
def terminationYear (r : EmployeeRecord) : Option Int :=
  r.terminationDate.map (fun d => d.1)

/-- Column `TerminationMonth = df["DateofTermination"].dt.month`. -/
def terminationMonth (r : EmployeeRecord) : Option Nat :=
  r.terminationDate.map (fun d => d.2.1)

/-- The four callback inputs: `selected_depts`, `selected_genders`,
`selected_status` (empty list = `None` = no restriction) and `year_range`
(`none` = no slider value). -/
structure FilterSpec where
  departments : List String
  genders : List String
  statuses : List String
  yearRange : Option (Int × Int)
deriving DecidableEq

/-- Module-level `years` is nonempty: the unfiltered dataset has at least one
record with a present `TerminationYear` (`years = sorted(df["TerminationYear"]
.dropna().unique())`, used as a truthiness guard). -/
def hasTermYears (ds : List EmployeeRecord) : Bool :=
  ds.any (fun r => (terminationYear r).isSome)

/-- Slice `dff`: the full filtered population — department and gender filters only
(`dff[dff["Department"].isin(...)]`, `dff[dff["Sex"].isin(...)]`, each applied
only when the selection is non-empty). -/
def dff (ds : List EmployeeRecord) (fs : FilterSpec) : List EmployeeRecord :=
  let d1 := if fs.departments.isEmpty then ds
            else ds.filter (fun r => fs.departments.contains r.department)
  if fs.genders.isEmpty then d1
  else d1.filter (fun r => fs.genders.contains r.gender)

/-- Slice `dff_active = dff[dff["Termd"] == 0]`. -/
def dff_active (ds : List EmployeeRecord) (fs : FilterSpec) : List EmployeeRecord :=
  (dff ds fs).filter (fun r => !r.termd)

/-- Slice `dff_term`: records of `dff` with `Termd == 1`, narrowed by the status
filter (when non-empty) and by the inclusive year range (only when a range is
supplied AND the dataset-level `years` list is nonempty, mirroring
`if year_range and years:`).  A missing `TerminationYear` compares as `NaN`
in pandas, hence fails both bound checks and is dropped by the range filter. -/
def dff_term (ds : List EmployeeRecord) (fs : FilterSpec) : List EmployeeRecord :=
  let base := (dff ds fs).filter (fun r => r.termd)
  let s := if fs.statuses.isEmpty then base
           else base.filter (fun r => fs.statuses.contains r.employmentStatus)
  match fs.yearRange, hasTermYears ds with
  | some (lo, hi), true =>
      s.filter (fun r =>
        match terminationYear r with
        | some y => decide (lo ≤ y) && decide (y ≤ hi)
        | none => false)
  | _, _ => s

/-- KPI `total = len(dff)`. -/
def total (ds : List EmployeeRecord) (fs : FilterSpec) : Nat :=
  (dff ds fs).length

/-- KPI `terminated = int(dff["Termd"].sum())` — counted on `dff`, NOT on the
status/year-narrowed `dff_term`. -/
def terminated (ds : List EmployeeRecord) (fs : FilterSpec) : Nat :=
  (dff ds fs).countP (fun r => r.termd)

/-- KPI `active = len(dff_active)` — a direct count of the active slice. -/
def active (ds : List EmployeeRecord) (fs : FilterSpec) : Nat :=
  (dff_active ds fs).length

/-- Python's `round` to an integer: round half to even (banker's rounding),
modelled on exact rationals. -/
def roundHalfEven (q : Rat) : Int :=
  let f : Int := ⌊q⌋
  let frac : Rat := q - (f : Rat)
  if frac < 1/2 then f
  else if 1/2 < frac then f + 1
  else if f % 2 = 0 then f else f + 1

/-- Python's `round(x, 1)` / pandas `.round(1)`. -/
def round1 (q : Rat) : Rat :=
  (roundHalfEven (q * 10) : Rat) / 10

/-- KPI `attr_rate = round(terminated / total * 100, 1) if total > 0 else 0`. -/
def attr_rate (ds : List EmployeeRecord) (fs : FilterSpec) : Rat :=
  if 0 < total ds fs then
    round1 ((terminated ds fs : Rat) / (total ds fs : Rat) * 100)
  else 0

/-- A filter selection with the status and year-range filters absent. -/
def clearTermFilters (fs : FilterSpec) : FilterSpec :=
  { fs with statuses := [], yearRange := none }

/-! ### Example data (the three-record dataset of the spec's §8) -/

/-- Record 1: department A, still active. -/
def rA0 : EmployeeRecord :=
  { empID := 1, employeeName := "Alice", department := "A", gender := "F",
    employmentStatus := "Active", salary := 50000, engagementScore := some 4,
    termd := false, terminationDate := none, hireYear := some 2015,
    termReason := "N/A-StillEmployed", managerName := "M1" }

/-- Record 2: department A, voluntarily terminated March 2020. -/
def rA1 : EmployeeRecord :=
  { empID := 2, employeeName := "Bob", department := "A", gender := "M",
    employmentStatus := "Voluntarily Terminated", salary := 60000,
    engagementScore := some 3, termd := true,
    terminationDate := some (2020, 3, 1), hireYear := some 2016,
    termReason := "career change", managerName := "M1" }

/-- Record 3: department B, terminated for cause May 2020. -/
def rB1 : EmployeeRecord :=
  { empID := 3, employeeName := "Cara", department := "B", gender := "F",
    employmentStatus := "Terminated for Cause", salary := 55000,
    engagementScore := some 2, termd := true,
    terminationDate := some (2020, 5, 1), hireYear := some 2014,
    termReason := "attendance", managerName := "M2" }

/-- The three-record example dataset. -/
def ex3 : List EmployeeRecord := [rA0, rA1, rB1]

/-- No filters selected. -/
def fsNone : FilterSpec :=
  { departments := [], genders := [], statuses := [], yearRange := none }

/-- Status filter = set containing only "Terminated for Cause". -/
def fsCause : FilterSpec :=
  { departments := [], genders := [], statuses := ["Terminated for Cause"],
    yearRange := none }

/-- A record terminated in February 2021. -/
def rC21 : EmployeeRecord :=
  { empID := 4, employeeName := "Dion", department := "A", gender := "M",
    employmentStatus := "Voluntarily Terminated", salary := 52000,
    engagementScore := none, termd := true,
    terminationDate := some (2021, 2, 1), hireYear := some 2018,
    termReason := "relocation", managerName := "M1" }

/-- A dataset whose terminated slice spans two termination years. -/
def ex2y : List EmployeeRecord := [rA1, rC21]

/-! ### Helper lemmas -/

/-- Splitting a list's length into a boolean predicate's failures plus its
successes. -/
theorem length_filter_not_add_countP (p : EmployeeRecord → Bool)
    (l : List EmployeeRecord) :
    (l.filter (fun a => !p a)).length + l.countP p = l.length := by
  induction l with
  | nil => rfl
  | cons a l ih =>
      cases hp : p a <;> simp [List.filter_cons, List.countP_cons, hp] <;> omega

/-- Evaluating `roundHalfEven` below the midpoint. -/
theorem roundHalfEven_eq_low (q : Rat) (n : Int) (h1 : (n : Rat) ≤ q)
    (h2 : q - (n : Rat) < 1/2) : roundHalfEven q = n := by
  have hf : ⌊q⌋ = n := by
    rw [Int.floor_eq_iff]
    exact ⟨h1, by linarith⟩
  unfold roundHalfEven
  rw [hf, if_pos h2]

/-- Evaluating `roundHalfEven` above the midpoint. -/
theorem roundHalfEven_eq_high (q : Rat) (n : Int) (h1 : (n : Rat) ≤ q)
    (h2 : q < (n : Rat) + 1) (h3 : 1/2 < q - (n : Rat)) :
    roundHalfEven q = n + 1 := by
  have hf : ⌊q⌋ = n := by
    rw [Int.floor_eq_iff]
    exact ⟨h1, by linarith⟩
  unfold roundHalfEven
  rw [hf, if_neg (by linarith), if_pos h3]

/-- The attrition-rate KPI on the example dataset with the cause-only status
filter: `round(2/3*100, 1) = 66.7`. -/
theorem attr_rate_ex3_cause : attr_rate ex3 fsCause = 667/10 := by
  have ht : terminated ex3 fsCause = 2 := rfl
  have htot : total ex3 fsCause = 3 := rfl
  have hq : attr_rate ex3 fsCause =
      round1 ((terminated ex3 fsCause : Rat) / (total ex3 fsCause : Rat) * 100) := by
    rw [attr_rate, if_pos (by rw [htot]; norm_num)]
  rw [hq, ht, htot, round1]
  have hr : roundHalfEven ((2 : Nat) / ((3 : Nat) : Rat) * 100 * 10) = 667 := by
    have h667 : roundHalfEven ((2 : Nat) / ((3 : Nat) : Rat) * 100 * 10) = 666 + 1 :=
      roundHalfEven_eq_high _ 666 (by push_cast; norm_num)
        (by push_cast; norm_num) (by push_cast; norm_num)
    rw [h667]
    norm_num
  rw [hr]
  norm_num

/-! ### Claim theorems -/

/-- Claim C1, counterexample.  On the three-record example dataset with
status filter set to "Terminated for Cause", the engine reports
`terminated = 2`, `attr_rate = 66.7` and `active = 1`: the terminated KPI is
NOT the size of the narrowed terminated slice (which is 1), the rate is not
33.3, and the active KPI is not `total - |narrowed slice| = 2`. -/
theorem c1_kpi_counterexample :
    (dff_term ex3 fsCause).length = 1 ∧
    terminated ex3 fsCause = 2 ∧
    ¬ terminated ex3 fsCause = (dff_term ex3 fsCause).length ∧
    active ex3 fsCause = 1 ∧
    ¬ active ex3 fsCause = total ex3 fsCause - (dff_term ex3 fsCause).length ∧
    attr_rate ex3 fsCause = 667/10 ∧
    ¬ attr_rate ex3 fsCause = 333/10 := by
  refine ⟨rfl, rfl, by decide, rfl, by decide, attr_rate_ex3_cause, ?_⟩
  rw [attr_rate_ex3_cause]
  norm_num

/-- Claim C1, amended.  The KPI `terminated` counts ALL `Termd = 1` records
of the department/gender-filtered population (unaffected by status or
year-range narrowing), `active` is the direct count of the active slice,
`active + terminated = total`, and on the three-record example with status
filter "Terminated for Cause" the engine reports `terminated = 2`,
`attr_rate = 66.7%`, `active = 1`. -/
theorem c1_kpi_amended (ds : List EmployeeRecord) (fs : FilterSpec) :
    terminated ds fs = ((dff ds fs).filter (fun r => r.termd)).length ∧
    active ds fs + terminated ds fs = total ds fs ∧
    terminated ds fs = terminated ds (clearTermFilters fs) ∧
    terminated ex3 fsCause = 2 ∧
    attr_rate ex3 fsCause = 667/10 ∧
    active ex3 fsCause = 1 := by
  refine ⟨?_, ?_, rfl, rfl, attr_rate_ex3_cause, rfl⟩
  · simp [terminated, List.countP_eq_length_filter]
  · exact length_filter_not_add_countP (fun r => r.termd) (dff ds fs)

/-- Claim C8.  The status and year-range filters touch only the terminated
slice: the full filtered population, the active slice, the `active` KPI and
the `total` KPI (the attrition-rate denominator) are all identical to what
they are with those two filters absent. -/
theorem c8_status_year_frame (ds : List EmployeeRecord) (fs : FilterSpec) :
    dff ds fs = dff ds (clearTermFilters fs) ∧
    dff_active ds fs = dff_active ds (clearTermFilters fs) ∧
    active ds fs = active ds (clearTermFilters fs) ∧
    total ds fs = total ds (clearTermFilters fs) := by
  exact ⟨rfl, rfl, rfl, rfl⟩

/-! ### Timeline aggregator (cumulative attrition line chart) -/

/-- Bucket `monthly_terms`: terminations of year `y` falling in month `m`
(`term_df.groupby("TerminationMonth")["EmpID"].count()` restricted to one
month bucket). -/
def monthlyTerms (l : List EmployeeRecord) (y : Int) (m : Nat) : Nat :=
  l.countP (fun r =>
    decide (terminationYear r = some y) && decide (terminationMonth r = some m))

/-- The running total `monthly["Terms"].cumsum()` over the dense month index
1..m (the merge with `months` zero-fills empty buckets, so buckets outside
1..12 never contribute). -/
def cumulativeTerms (l : List EmployeeRecord) (y : Int) (m : Nat) : Nat :=
  ((List.range m).map (fun i => monthlyTerms l y (i + 1))).sum

/-- Denominator `headcount = len(dff[dff["HireYear"] <= year])`; a missing `HireYear`
compares as `NaN`, hence is excluded. -/
def headcountAt (ds : List EmployeeRecord) (fs : FilterSpec) (y : Int) : Nat :=
  (dff ds fs).countP (fun r =>
    match r.hireYear with
    | some h => decide (h ≤ y)
    | none => false)

/-- Rate `monthly["CumulativeAttritionRate"] = CumulativeTerms / headcount * 100
if headcount > 0 else 0`. -/
def cumRate (ds : List EmployeeRecord) (fs : FilterSpec) (y : Int) (m : Nat) : Rat :=
  if 0 < headcountAt ds fs y then
    (cumulativeTerms (dff_term ds fs) y m : Rat) / (headcountAt ds fs y : Rat) * 100
  else 0

/-- One plotted point `(Year, TerminationMonth, CumulativeAttritionRate)`. -/
structure TimelinePoint where
  year : Int
  month : Nat
  cumulativeAttritionRate : Rat
deriving DecidableEq

/-- Years `valid_years = sorted(dff_term["TerminationYear"].dropna().unique())` —
ascending sort of the distinct present termination years of the narrowed
terminated slice. -/
def validYears (ds : List EmployeeRecord) (fs : FilterSpec) : List Int :=
  List.insertionSort (fun a b : Int => a ≤ b)
    (((dff_term ds fs).filterMap terminationYear).dedup)

/-- The 12 points of one year's series (rows of `monthly` for that year). -/
def yearSeries (ds : List EmployeeRecord) (fs : FilterSpec) (y : Int) :
    List TimelinePoint :=
  (List.range 12).map (fun i => ⟨y, i + 1, cumRate ds fs y (i + 1)⟩)

/-- Concatenation `final_chart_df = pd.concat(chart_data)`: the per-year frames appended in
`valid_years` (ascending) order. -/
def timelineSeries (ds : List EmployeeRecord) (fs : FilterSpec) : List TimelinePoint :=
  (validYears ds fs).flatMap (yearSeries ds fs)

/-- Output `fig_year`: the timeline chart data, or the explicit no-data marker
(`px.line(title="No data available for current filters")`) when `dff` or
`dff_term` is empty. -/
def fig_year (ds : List EmployeeRecord) (fs : FilterSpec) :
    Option (List TimelinePoint) :=
  if dff ds fs = [] ∨ dff_term ds fs = [] then none
  else some (timelineSeries ds fs)

/-- The x-axis tick labels of the timeline chart. -/
def monthLabels : List String :=
  ["Jan", "Feb", "Mar", "Apr", "May", "Jun",
   "Jul", "Aug", "Sep", "Oct", "Nov", "Dec"]

/-- Label attached to month `m` (tick `m` carries `ticktext[m-1]`). -/
def monthLabel (m : Nat) : String :=
  monthLabels.getD (m - 1) ""

/-! ### Timeline lemmas -/

/-- Unfolding one step of the cumulative sum. -/
theorem cumulativeTerms_succ (l : List EmployeeRecord) (y : Int) (m : Nat) :
    cumulativeTerms l y (m + 1) = cumulativeTerms l y m + monthlyTerms l y (m + 1) := by
  unfold cumulativeTerms
  rw [List.range_succ, List.map_append, List.sum_append]
  simp

/-- A count splits along a pointwise partition of its predicate. -/
theorem countP_add_of_partition {α : Type} (p q s : α → Bool) (l : List α)
    (h : ∀ a, (if p a then 1 else 0) = ((if q a then 1 else 0) : Nat) + (if s a then 1 else 0)) :
    l.countP p = l.countP q + l.countP s := by
  induction l with
  | nil => rfl
  | cons a l ih =>
      simp only [List.countP_cons, ih]
      have := h a
      omega

/-- Counting months `1..m+1` splits into months `1..m` plus month `m+1`. -/
theorem countP_months_succ (l : List EmployeeRecord) (y : Int) (m : Nat) :
    l.countP (fun r => decide (terminationYear r = some y) &&
      (terminationMonth r).any (fun mo => decide (1 ≤ mo) && decide (mo ≤ m + 1))) =
    l.countP (fun r => decide (terminationYear r = some y) &&
      (terminationMonth r).any (fun mo => decide (1 ≤ mo) && decide (mo ≤ m)))
      + monthlyTerms l y (m + 1) := by
  unfold monthlyTerms
  refine countP_add_of_partition _ _ _ l ?_
  intro r
  rcases hy : terminationYear r with _ | yv <;>
    rcases hm2 : terminationMonth r with _ | mo <;>
      simp [hy, hm2] <;> split_ifs <;> omega

/-- The cumulative sum of the dense monthly buckets counts exactly the
terminations of year `y` whose month lies in `1..m`. -/
theorem cumulativeTerms_eq_countP (l : List EmployeeRecord) (y : Int) (m : Nat) :
    cumulativeTerms l y m =
    l.countP (fun r => decide (terminationYear r = some y) &&
      (terminationMonth r).any (fun mo => decide (1 ≤ mo) && decide (mo ≤ m))) := by
  induction m with
  | zero =>
      have h0 : l.countP (fun r => decide (terminationYear r = some y) &&
          (terminationMonth r).any (fun mo => decide (1 ≤ mo) && decide (mo ≤ 0))) = 0 := by
        rw [List.countP_eq_zero]
        intro r hr
        rcases hmo : terminationMonth r with _ | mo <;> simp [hmo] <;> omega
      rw [h0]
      rfl
  | succ m ih =>
      rw [cumulativeTerms_succ, ih, countP_months_succ]

/-- Every point of a year's series carries that year. -/
theorem year_of_mem_yearSeries (ds : List EmployeeRecord) (fs : FilterSpec)
    (y : Int) (p : TimelinePoint) (hp : p ∈ yearSeries ds fs y) : p.year = y := by
  unfold yearSeries at hp
  rw [List.mem_map] at hp
  obtain ⟨i, _, hi⟩ := hp
  rw [← hi]

/-- Membership in `valid_years` is presence of the year in the narrowed
terminated slice. -/
theorem mem_validYears (ds : List EmployeeRecord) (fs : FilterSpec) (y : Int) :
    y ∈ validYears ds fs ↔ ∃ r ∈ dff_term ds fs, terminationYear r = some y := by
  unfold validYears
  rw [(List.perm_insertionSort _ _).mem_iff, List.mem_dedup, List.mem_filterMap]

/-- The list `valid_years` has no duplicate years. -/
theorem nodup_validYears (ds : List EmployeeRecord) (fs : FilterSpec) :
    (validYears ds fs).Nodup := by
  unfold validYears
  exact (List.perm_insertionSort _ _).nodup_iff.mpr (List.nodup_dedup _)

/-- The list `valid_years` is sorted ascending. -/
theorem sorted_validYears (ds : List EmployeeRecord) (fs : FilterSpec) :
    List.Sorted (fun a b : Int => a ≤ b) (validYears ds fs) :=
  List.sorted_insertionSort _ _

/-- Filtering a concatenation of year blocks down to one listed year yields
exactly that year's block. -/
theorem filter_flatMap_yearSeries (ds : List EmployeeRecord) (fs : FilterSpec)
    (ys : List Int) (y : Int) (hnd : ys.Nodup) (hy : y ∈ ys) :
    (ys.flatMap (yearSeries ds fs)).filter (fun p => p.year == y)
      = yearSeries ds fs y := by
  induction ys with
  | nil => exact absurd hy (List.not_mem_nil y)
  | cons a ys ih =>
      rw [List.flatMap_cons, List.filter_append]
      rcases List.mem_cons.mp hy with hya | hys
      · subst hya
        have h1 : (yearSeries ds fs y).filter (fun p => p.year == y)
            = yearSeries ds fs y := by
          rw [List.filter_eq_self]
          intro p hp
          simp [year_of_mem_yearSeries ds fs y p hp]
        have h2 : (ys.flatMap (yearSeries ds fs)).filter (fun p => p.year == y)
            = [] := by
          rw [List.filter_eq_nil_iff]
          intro p hp
          rw [List.mem_flatMap] at hp
          obtain ⟨z, hz, hpz⟩ := hp
          have hpy := year_of_mem_yearSeries ds fs z p hpz
          have hzy : z ≠ y := by
            intro h
            exact (List.nodup_cons.mp hnd).1 (h ▸ hz)
          simp [hpy, hzy]
        rw [h1, h2, List.append_nil]
      · have hya : y ≠ a := by
          intro h
          exact (List.nodup_cons.mp hnd).1 (h ▸ hys)
        have h1 : (yearSeries ds fs a).filter (fun p => p.year == y) = [] := by
          rw [List.filter_eq_nil_iff]
          intro p hp
          simp [year_of_mem_yearSeries ds fs a p hp, Ne.symm hya]
        rw [h1, List.nil_append]
        exact ih (List.nodup_cons.mp hnd).2 hys

/-- Filtering the concatenated chart data to one listed year yields exactly
that year's 12-row block. -/
theorem filter_timelineSeries (ds : List EmployeeRecord) (fs : FilterSpec)
    (y : Int) (hy : y ∈ validYears ds fs) :
    (timelineSeries ds fs).filter (fun p => p.year == y) = yearSeries ds fs y :=
  filter_flatMap_yearSeries ds fs (validYears ds fs) y (nodup_validYears ds fs) hy

/-- The months of one year's block are the dense index 1..12. -/
theorem map_month_yearSeries (ds : List EmployeeRecord) (fs : FilterSpec) (y : Int) :
    (yearSeries ds fs y).map TimelinePoint.month = (List.range 12).map (fun i => i + 1) := by
  unfold yearSeries
  rw [List.map_map]
  rfl

/-- The years column of one year's block: twelve copies of the year. -/
theorem map_year_yearSeries (ds : List EmployeeRecord) (fs : FilterSpec) (y : Int) :
    (yearSeries ds fs y).map TimelinePoint.year = List.replicate 12 y := by
  unfold yearSeries
  rw [List.map_map]
  have h : (List.range 12).map
        (TimelinePoint.year ∘ fun i => (⟨y, i + 1, cumRate ds fs y (i + 1)⟩ : TimelinePoint))
      = (List.range 12).map (Function.const Nat y) := rfl
  rw [h, List.map_const, List.length_range]

/-- The years column of the chart data: each listed year repeated twelve
times, in `valid_years` order. -/
theorem map_year_timelineSeries (ds : List EmployeeRecord) (fs : FilterSpec) :
    (timelineSeries ds fs).map TimelinePoint.year
      = (validYears ds fs).flatMap (fun y => List.replicate 12 y) := by
  unfold timelineSeries
  simp only [List.map_flatMap, map_year_yearSeries]

/-- A constant run is sorted. -/
theorem sorted_replicate_le (n : Nat) (y : Int) :
    List.Sorted (fun a b : Int => a ≤ b) (List.replicate n y) := by
  induction n with
  | zero => exact List.sorted_nil
  | succ n ih =>
      rw [List.replicate_succ]
      refine List.Pairwise.cons ?_ ih
      intro b hb
      rw [List.mem_replicate] at hb
      exact le_of_eq hb.2.symm

/-- Flattening constant runs over a sorted year list stays sorted. -/
theorem sorted_flatMap_replicate (ys : List Int)
    (h : List.Sorted (fun a b : Int => a ≤ b) ys) :
    List.Sorted (fun a b : Int => a ≤ b)
      (ys.flatMap (fun y => List.replicate 12 y)) := by
  induction ys with
  | nil => exact List.sorted_nil
  | cons a ys ih =>
      rw [List.flatMap_cons]
      rw [List.Sorted, List.pairwise_append]
      refine ⟨sorted_replicate_le 12 a, ih h.of_cons, ?_⟩
      intro x hx b hb
      rw [List.mem_replicate] at hx
      rw [List.mem_flatMap] at hb
      obtain ⟨z, hz, hbz⟩ := hb
      rw [List.mem_replicate] at hbz
      rw [hx.2, hbz.2]
      exact List.rel_of_sorted_cons h z hz

/-! ### Claims C2, C4, C9 -/

/-- Claim C4.  Each year's cumulative termination rate is monotonically
non-decreasing from month to month: the cumulative count only grows and the
denominator is fixed for the year (0-denominator years are constantly 0). -/
theorem c4_cumulative_rate_monotone (ds : List EmployeeRecord) (fs : FilterSpec)
    (y : Int) (m : Nat) : cumRate ds fs y m ≤ cumRate ds fs y (m + 1) := by
  have hle : (cumulativeTerms (dff_term ds fs) y m : Rat)
      ≤ (cumulativeTerms (dff_term ds fs) y (m + 1) : Rat) := by
    have h := cumulativeTerms_succ (dff_term ds fs) y m
    have : cumulativeTerms (dff_term ds fs) y m
        ≤ cumulativeTerms (dff_term ds fs) y (m + 1) := by omega
    exact_mod_cast this
  unfold cumRate
  by_cases h : 0 < headcountAt ds fs y
  · rw [if_pos h, if_pos h]
    have hc : (0 : Rat) < (headcountAt ds fs y : Rat) := by exact_mod_cast h
    gcongr
  · rw [if_neg h, if_neg h]

/-- Claim C2.  For a year `y` present in the narrowed terminated slice, the
chart has exactly the dense 12-month block for `y` (months 1..12, empty
months zero-filled); the cumulative numerator at month `m` counts the
slice's year-`y` terminations in months `1..m`; and the rate is that count
over the `hire_year ≤ y` headcount of the filtered population times 100,
with 0 (no division error) when the headcount is 0. -/
theorem c2_timeline_series (ds : List EmployeeRecord) (fs : FilterSpec)
    (y : Int) (m : Nat) (hy : y ∈ validYears ds fs) (hm : 1 ≤ m ∧ m ≤ 12) :
    ((timelineSeries ds fs).filter (fun p => p.year == y)).map TimelinePoint.month
      = (List.range 12).map (fun i => i + 1) ∧
    cumulativeTerms (dff_term ds fs) y m
      = (dff_term ds fs).countP (fun r => decide (terminationYear r = some y) &&
          (terminationMonth r).any (fun mo => decide (1 ≤ mo) && decide (mo ≤ m))) ∧
    cumRate ds fs y m
      = (if 0 < headcountAt ds fs y then
          (cumulativeTerms (dff_term ds fs) y m : Rat) / (headcountAt ds fs y : Rat) * 100
         else 0) ∧
    (headcountAt ds fs y = 0 → cumRate ds fs y m = 0) := by
  refine ⟨?_, cumulativeTerms_eq_countP _ y m, rfl, ?_⟩
  · rw [filter_timelineSeries ds fs y hy, map_month_yearSeries]
  · intro h0
    unfold cumRate
    rw [if_neg (by omega)]

/-- Claim C2, witness: the example dataset, no filters, year 2020, month 5. -/
theorem c2_timeline_series_witness :
    ((timelineSeries ex3 fsNone).filter (fun p => p.year == 2020)).map TimelinePoint.month
      = (List.range 12).map (fun i => i + 1) :=
  (c2_timeline_series ex3 fsNone 2020 5 (by decide) (by decide)).1

/-- Claim C9, counterexample.  With two termination years 2020 and 2021, the
chart data's year column is twelve 2020-rows followed by twelve 2021-rows —
ascending, not the descending order the claim states. -/
theorem c9_counterexample :
    validYears ex2y fsNone = [2020, 2021] ∧
    (timelineSeries ex2y fsNone).map TimelinePoint.year
      = List.replicate 12 2020 ++ List.replicate 12 2021 ∧
    ¬ List.Sorted (fun a b : Int => b ≤ a)
        ((timelineSeries ex2y fsNone).map TimelinePoint.year) := by
  have h1 : validYears ex2y fsNone = [2020, 2021] := by decide
  have h2 : (timelineSeries ex2y fsNone).map TimelinePoint.year
      = List.replicate 12 2020 ++ List.replicate 12 2021 := by
    rw [map_year_timelineSeries, h1]
    decide
  refine ⟨h1, h2, ?_⟩
  rw [h2]
  decide

/-- Claim C9, amended.  The chart data covers exactly the years present in
the narrowed terminated slice, each crossed with all 12 months; the year
column is ordered ASCENDING (the series order of the plot); and the month
ticks are labelled Jan..Dec. -/
theorem c9_timeline_coverage (ds : List EmployeeRecord) (fs : FilterSpec) :
    (∀ y : Int, (∃ r ∈ dff_term ds fs, terminationYear r = some y) ↔
        y ∈ (timelineSeries ds fs).map TimelinePoint.year) ∧
    (∀ y ∈ validYears ds fs, ∀ m : Nat, 1 ≤ m → m ≤ 12 →
        ∃ p ∈ timelineSeries ds fs, p.year = y ∧ p.month = m) ∧
    List.Sorted (fun a b : Int => a ≤ b)
      ((timelineSeries ds fs).map TimelinePoint.year) ∧
    monthLabels = ["Jan", "Feb", "Mar", "Apr", "May", "Jun",
                   "Jul", "Aug", "Sep", "Oct", "Nov", "Dec"] ∧
    monthLabels.length = 12 := by
  refine ⟨?_, ?_, ?_, rfl, rfl⟩
  · intro y
    rw [← mem_validYears, map_year_timelineSeries, List.mem_flatMap]
    constructor
    · intro hy
      exact ⟨y, hy, by rw [List.mem_replicate]; exact ⟨by omega, rfl⟩⟩
    · rintro ⟨z, hz, hyz⟩
      rw [List.mem_replicate] at hyz
      exact hyz.2 ▸ hz
  · intro y hy m hm1 hm2
    refine ⟨⟨y, m, cumRate ds fs y m⟩, ?_, rfl, rfl⟩
    unfold timelineSeries
    rw [List.mem_flatMap]
    refine ⟨y, hy, ?_⟩
    unfold yearSeries
    rw [List.mem_map]
    refine ⟨m - 1, List.mem_range.mpr (by omega), ?_⟩
    have hmm : m - 1 + 1 = m := by omega
    rw [hmm]
  · rw [map_year_timelineSeries]
    exact sorted_flatMap_replicate _ (sorted_validYears ds fs)

/-- Claim C9 amended, witness: concrete coverage instance on the two-year
dataset. -/
theorem c9_timeline_coverage_witness :
    List.Sorted (fun a b : Int => a ≤ b)
      ((timelineSeries ex2y fsNone).map TimelinePoint.year) :=
  (c9_timeline_coverage ex2y fsNone).2.2.1

/-! ### Grouping helpers (pandas `groupby` produces its keys sorted and
without duplicates; `sort_values` then reorders rows) -/

/-- Membership in sorted-deduplicated keys. -/
theorem mem_sortedDedup (l : List String) (d : String) :
    d ∈ List.insertionSort (fun a b : String => a ≤ b) l.dedup ↔ d ∈ l := by
  rw [(List.perm_insertionSort _ _).mem_iff, List.mem_dedup]

/-- Sorted-deduplicated keys are duplicate-free. -/
theorem nodup_sortedDedup (l : List String) :
    (List.insertionSort (fun a b : String => a ≤ b) l.dedup).Nodup :=
  (List.perm_insertionSort _ _).nodup_iff.mpr (List.nodup_dedup _)

/-- Membership in a sorted row list built from keys. -/
theorem mem_sort_map {β : Type} (r : β → β → Prop) [DecidableRel r]
    (f : String → β) (keys : List String) (e : β) :
    e ∈ List.insertionSort r (keys.map f) ↔ ∃ d ∈ keys, f d = e := by
  rw [(List.perm_insertionSort _ _).mem_iff, List.mem_map]

/-- A sorted row list built from duplicate-free keys has duplicate-free
keys. -/
theorem nodup_map_sort {β : Type} (r : β → β → Prop) [DecidableRel r]
    (g : β → String) (f : String → β) (keys : List String)
    (hkeys : keys.Nodup) (hgf : ∀ d, g (f d) = d) :
    ((List.insertionSort r (keys.map f)).map g).Nodup := by
  have hperm : ((List.insertionSort r (keys.map f)).map g).Perm ((keys.map f).map g) :=
    (List.perm_insertionSort r _).map g
  rw [hperm.nodup_iff]
  rw [List.map_map]
  have h1 : keys.map (g ∘ f) = keys.map id := List.map_congr_left (fun d _ => hgf d)
  rw [h1, List.map_id]
  exact hkeys

/-- Rounding zero: `round(0, 1) = 0`. -/
theorem round1_zero : round1 0 = 0 := by
  have h : roundHalfEven ((0 : Rat) * 10) = 0 := by
    refine roundHalfEven_eq_low _ 0 (by norm_num) (by norm_num)
  rw [round1, h]
  norm_num

/-! ### Department breakdown (attrition rate per department) -/

/-- One row of `dept_attrition` after the left merge, fill and rate
computation. -/
structure DeptRate where
  department : String
  totalEmployees : Nat
  terminatedCount : Nat
  attritionRate : Rat
deriving DecidableEq

/-- The descending order of `sort_values("AttritionRate", ascending=False)`. -/
def deptGE (a b : DeptRate) : Prop := b.attritionRate ≤ a.attritionRate

instance : DecidableRel deptGE :=
  fun a b => inferInstanceAs (Decidable (b.attritionRate ≤ a.attritionRate))

instance : IsTotal DeptRate deptGE :=
  ⟨fun a b => le_total b.attritionRate a.attritionRate⟩

instance : IsTrans DeptRate deptGE :=
  ⟨fun _ _ _ h1 h2 => le_trans h2 h1⟩

/-- The distinct departments of a slice, ascending (`groupby("Department")`
keys). -/
def deptKeys (l : List EmployeeRecord) : List String :=
  List.insertionSort (fun a b : String => a ≤ b)
    ((l.map (fun r => r.department)).dedup)

/-- The row built for department `d`: total from `dff`, terminations from
`dff_term` (left merge + `fillna(0)`), rate `(Terminated / TotalEmployees
* 100).round(1)`. -/
def deptRow (ds : List EmployeeRecord) (fs : FilterSpec) (d : String) : DeptRate :=
  let t := (dff ds fs).countP (fun r => r.department == d)
  let k := (dff_term ds fs).countP (fun r => r.department == d)
  { department := d, totalEmployees := t, terminatedCount := k,
    attritionRate := round1 ((k : Rat) / (t : Rat) * 100) }

/-- Table `dept_attrition`: one row per department of `dff` (left-join keys),
sorted descending by rate. -/
def dept_attrition (ds : List EmployeeRecord) (fs : FilterSpec) : List DeptRate :=
  List.insertionSort deptGE ((deptKeys (dff ds fs)).map (deptRow ds fs))

/-- Output `fig_dept`: the department chart data, or the no-data marker
(`px.bar(title="No termination data for current filters")`). -/
def fig_dept (ds : List EmployeeRecord) (fs : FilterSpec) : Option (List DeptRate) :=
  if dff_term ds fs = [] then none else some (dept_attrition ds fs)

/-- Claim C3.  When the terminated slice is non-empty the emitted department
breakdown has exactly one row per department of the filtered full population
(left-join semantics: zero-termination departments included, none dropped),
each row's rate is `round1(terminated / total * 100)` with rate 0 for
zero-termination departments, and rows are sorted descending by rate. -/
theorem c3_department_rate (ds : List EmployeeRecord) (fs : FilterSpec)
    (h : dff_term ds fs ≠ []) :
    fig_dept ds fs = some (dept_attrition ds fs) ∧
    (∀ d : String, (∃ r ∈ dff ds fs, r.department = d) ↔
        ∃ e ∈ dept_attrition ds fs, e.department = d) ∧
    ((dept_attrition ds fs).map DeptRate.department).Nodup ∧
    (∀ e ∈ dept_attrition ds fs,
        e.totalEmployees = (dff ds fs).countP (fun r => r.department == e.department) ∧
        e.terminatedCount = (dff_term ds fs).countP (fun r => r.department == e.department) ∧
        e.attritionRate = round1 ((e.terminatedCount : Rat) / (e.totalEmployees : Rat) * 100)) ∧
    (∀ e ∈ dept_attrition ds fs, e.terminatedCount = 0 → e.attritionRate = 0) ∧
    List.Sorted deptGE (dept_attrition ds fs) := by
  have hmem : ∀ e, e ∈ dept_attrition ds fs ↔
      ∃ d ∈ deptKeys (dff ds fs), deptRow ds fs d = e := by
    intro e
    exact mem_sort_map deptGE (deptRow ds fs) (deptKeys (dff ds fs)) e
  have hfields : ∀ e ∈ dept_attrition ds fs,
      e.totalEmployees = (dff ds fs).countP (fun r => r.department == e.department) ∧
      e.terminatedCount = (dff_term ds fs).countP (fun r => r.department == e.department) ∧
      e.attritionRate = round1 ((e.terminatedCount : Rat) / (e.totalEmployees : Rat) * 100) := by
    intro e he
    obtain ⟨d, _, hd⟩ := (hmem e).mp he
    rw [← hd]
    exact ⟨rfl, rfl, rfl⟩
  refine ⟨?_, ?_, ?_, hfields, ?_, List.sorted_insertionSort _ _⟩
  · unfold fig_dept
    rw [if_neg h]
  · intro d
    constructor
    · rintro ⟨r, hr, hrd⟩
      refine ⟨deptRow ds fs d, ?_, rfl⟩
      rw [hmem]
      refine ⟨d, ?_, rfl⟩
      rw [deptKeys, mem_sortedDedup, List.mem_map]
      exact ⟨r, hr, hrd⟩
    · rintro ⟨e, he, hed⟩
      obtain ⟨d2, hd2, hrow⟩ := (hmem e).mp he
      have h3 : (deptRow ds fs d2).department = d2 := rfl
      rw [hrow] at h3
      have hd2d : d2 = d := by rw [← h3]; exact hed
      rw [deptKeys, mem_sortedDedup, List.mem_map] at hd2
      obtain ⟨r, hr, hrd⟩ := hd2
      exact ⟨r, hr, by rw [hrd, hd2d]⟩
  · exact nodup_map_sort deptGE DeptRate.department (deptRow ds fs) _
      (nodup_sortedDedup _) (fun d => rfl)
  · intro e he hk
    obtain ⟨_, _, hrate⟩ := hfields e he
    rw [hrate, hk]
    have hz : ((0 : Nat) : Rat) / (e.totalEmployees : Rat) * 100 = 0 := by
      norm_num
    rw [hz, round1_zero]

/-- Claim C3, witness: the example dataset with no filters. -/
theorem c3_department_rate_witness :
    fig_dept ex3 fsNone = some (dept_attrition ex3 fsNone) ∧
    List.Sorted deptGE (dept_attrition ex3 fsNone) :=
  ⟨(c3_department_rate ex3 fsNone (by decide)).1,
   (c3_department_rate ex3 fsNone (by decide)).2.2.2.2.2⟩

/-! ### Gender breakdown -/

/-- Counts `gender_counts = dff_term.groupby("Sex")["EmpID"].count()`: one
(gender, count) pair per distinct gender, keys ascending. -/
def gender_counts (ds : List EmployeeRecord) (fs : FilterSpec) : List (String × Nat) :=
  (List.insertionSort (fun a b : String => a ≤ b)
      (((dff_term ds fs).map (fun r => r.gender)).dedup)).map
    (fun g => (g, (dff_term ds fs).countP (fun r => r.gender == g)))

/-- Output `fig_gender`: the pie data, or the no-data marker
(`px.pie(names=["No data"], values=[1])`). -/
def fig_gender (ds : List EmployeeRecord) (fs : FilterSpec) :
    Option (List (String × Nat)) :=
  if dff_term ds fs = [] then none else some (gender_counts ds fs)

/-! ### Reason breakdown -/

/-- The ascending-count order of `sort_values("Count", ascending=True)`. -/
def countLE (a b : String × Nat) : Prop := a.2 ≤ b.2

instance : DecidableRel countLE :=
  fun a b => inferInstanceAs (Decidable (a.2 ≤ b.2))

instance : IsTotal (String × Nat) countLE :=
  ⟨fun a b => le_total a.2 b.2⟩

instance : IsTrans (String × Nat) countLE :=
  ⟨fun _ _ _ h1 h2 => le_trans h1 h2⟩

/-- The (reason, count) pair built for one reason key. -/
def reasonRow (ds : List EmployeeRecord) (fs : FilterSpec) (s : String) : String × Nat :=
  (s, (dff_term ds fs).countP (fun r => r.termReason == s))

/-- Counts `reason_counts = dff_term.groupby("TermReason")["EmpID"].count()
.sort_values("Count", ascending=True)`: ALL distinct reasons of the narrowed
terminated slice, ordered ascending by count.  The source applies no
top-10 (or any) truncation. -/
def reason_counts (ds : List EmployeeRecord) (fs : FilterSpec) : List (String × Nat) :=
  List.insertionSort countLE
    ((List.insertionSort (fun a b : String => a ≤ b)
        (((dff_term ds fs).map (fun r => r.termReason)).dedup)).map (reasonRow ds fs))

/-- Output `fig_reason`: the bar data, or the no-data marker (`px.bar(title="No
data")`). -/
def fig_reason (ds : List EmployeeRecord) (fs : FilterSpec) :
    Option (List (String × Nat)) :=
  if dff_term ds fs = [] then none else some (reason_counts ds fs)

/-- The reason breakdown has one row per distinct reason of the slice. -/
theorem length_reason_counts (ds : List EmployeeRecord) (fs : FilterSpec) :
    (reason_counts ds fs).length
      = (((dff_term ds fs).map (fun r => r.termReason)).dedup).length := by
  unfold reason_counts
  rw [(List.perm_insertionSort _ _).length_eq, List.length_map,
    (List.perm_insertionSort _ _).length_eq]

/-- A terminated record whose reason is distinct from ten others. -/
def mkReasonRec (i : Nat) (reason : String) : EmployeeRecord :=
  { empID := 100 + i, employeeName := "T", department := "A", gender := "F",
    employmentStatus := "Voluntarily Terminated", salary := 1000,
    engagementScore := none, termd := true,
    terminationDate := some (2020, 1, 1), hireYear := some 2010,
    termReason := reason, managerName := "M" }

/-- Eleven terminated records with eleven distinct termination reasons. -/
def ex11 : List EmployeeRecord :=
  ["Ra", "Rb", "Rc", "Rd", "Re", "Rf", "Rg", "Rh", "Ri", "Rj", "Rk"].map
    (mkReasonRec 0)

/-- Claim C5, counterexample.  With eleven distinct reasons the emitted
breakdown has eleven rows: the engine applies NO top-10 restriction. -/
theorem c5_counterexample :
    fig_reason ex11 fsNone = some (reason_counts ex11 fsNone) ∧
    (reason_counts ex11 fsNone).length = 11 ∧
    ¬ (reason_counts ex11 fsNone).length ≤ 10 := by
  have hlen : (reason_counts ex11 fsNone).length = 11 := by
    rw [length_reason_counts]
    decide
  refine ⟨?_, hlen, ?_⟩
  · unfold fig_reason
    rw [if_neg (by decide)]
  · rw [hlen]
    decide

/-- Claim C5, amended.  The reason breakdown groups the narrowed terminated
slice by termination reason — ALL distinct reasons appear, exactly once,
with their counts (no top-10 truncation exists in the engine) — and rows are
ordered ascending by count. -/
theorem c5_reason_breakdown (ds : List EmployeeRecord) (fs : FilterSpec)
    (h : dff_term ds fs ≠ []) :
    fig_reason ds fs = some (reason_counts ds fs) ∧
    (∀ s : String, (∃ r ∈ dff_term ds fs, r.termReason = s) ↔
        ∃ p ∈ reason_counts ds fs, p.1 = s) ∧
    ((reason_counts ds fs).map Prod.fst).Nodup ∧
    (∀ p ∈ reason_counts ds fs,
        p.2 = (dff_term ds fs).countP (fun r => r.termReason == p.1)) ∧
    List.Sorted countLE (reason_counts ds fs) := by
  have hmem : ∀ p, p ∈ reason_counts ds fs ↔
      ∃ s ∈ List.insertionSort (fun a b : String => a ≤ b)
          (((dff_term ds fs).map (fun r => r.termReason)).dedup),
        reasonRow ds fs s = p := by
    intro p
    exact mem_sort_map countLE (reasonRow ds fs) _ p
  refine ⟨?_, ?_, ?_, ?_, List.sorted_insertionSort _ _⟩
  · unfold fig_reason
    rw [if_neg h]
  · intro s
    constructor
    · rintro ⟨r, hr, hrs⟩
      refine ⟨reasonRow ds fs s, ?_, rfl⟩
      rw [hmem]
      refine ⟨s, ?_, rfl⟩
      rw [mem_sortedDedup, List.mem_map]
      exact ⟨r, hr, hrs⟩
    · rintro ⟨p, hp, hps⟩
      obtain ⟨s2, hs2, hrow⟩ := (hmem p).mp hp
      have h3 : (reasonRow ds fs s2).1 = s2 := rfl
      rw [hrow] at h3
      have hs2s : s2 = s := by rw [← h3]; exact hps
      rw [mem_sortedDedup, List.mem_map] at hs2
      obtain ⟨r, hr, hrs⟩ := hs2
      exact ⟨r, hr, by rw [hrs, hs2s]⟩
  · exact nodup_map_sort countLE Prod.fst (reasonRow ds fs) _
      (nodup_sortedDedup _) (fun s => rfl)
  · intro p hp
    obtain ⟨s, _, hrow⟩ := (hmem p).mp hp
    rw [← hrow]
    rfl

/-- Claim C5 amended, witness: the example dataset with no filters. -/
theorem c5_reason_breakdown_witness :
    fig_reason ex3 fsNone = some (reason_counts ex3 fsNone) ∧
    List.Sorted countLE (reason_counts ex3 fsNone) :=
  ⟨(c5_reason_breakdown ex3 fsNone (by decide)).1,
   (c5_reason_breakdown ex3 fsNone (by decide)).2.2.2.2⟩

/-! ### Engagement comparison -/

/-- Mean of the present engagement scores of a record list (`mean()` skips
missing values; an all-missing or empty group yields `NaN`, modelled
`none`). -/
def meanScores (l : List EmployeeRecord) : Option Rat :=
  let xs := l.filterMap (fun r => r.engagementScore)
  if xs.isEmpty then none else some (xs.sum / (xs.length : Rat))

/-- Mean engagement score of a slice's records in department `d`. -/
def engMean (l : List EmployeeRecord) (d : String) : Option Rat :=
  meanScores (l.filter (fun r => r.department == d))

/-- Keys of the outer merge of the two engagement groupbys, then
`sort_values("Department")`: distinct departments of either slice,
ascending. -/
def engKeys (ds : List EmployeeRecord) (fs : FilterSpec) : List String :=
  List.insertionSort (fun a b : String => a ≤ b)
    (((dff_active ds fs).map (fun r => r.department)
        ++ (dff_term ds fs).map (fun r => r.department)).dedup)

/-- Rows of `eng_compare`: triples `(Department, ActiveEngagement, TerminatedEngagement)`
(an absent side stays absent — outer join, no zero-fill). -/
def eng_compare (ds : List EmployeeRecord) (fs : FilterSpec) :
    List (String × Option Rat × Option Rat) :=
  (engKeys ds fs).map
    (fun d => (d, engMean (dff_active ds fs) d, engMean (dff_term ds fs) d))

/-! ### Salary table -/

/-- Mean salary of a slice. -/
def meanSalary (l : List EmployeeRecord) : Rat :=
  (l.map (fun r => r.salary)).sum / (l.length : Rat)

/-- The two salary rows; `none` renders as "N/A" when a slice is empty. -/
def salary_table (ds : List EmployeeRecord) (fs : FilterSpec) :
    List (String × Option Rat) :=
  [("Active",
      if dff_active ds fs = [] then none else some (meanSalary (dff_active ds fs))),
   ("Terminated",
      if dff_term ds fs = [] then none else some (meanSalary (dff_term ds fs)))]

/-! ### Recent-terminations table -/

/-- Lexicographic (year, month, day) order on dates. -/
def dateLex : Int × Nat × Nat → Int × Nat × Nat → Prop
  | (y1, m1, d1), (y2, m2, d2) =>
      y1 < y2 ∨ (y1 = y2 ∧ (m1 < m2 ∨ (m1 = m2 ∧ d1 ≤ d2)))

theorem dateLex_total (x y : Int × Nat × Nat) : dateLex x y ∨ dateLex y x := by
  obtain ⟨a1, b1, c1⟩ := x
  obtain ⟨a2, b2, c2⟩ := y
  simp only [dateLex]
  omega

theorem dateLex_trans (x y z : Int × Nat × Nat)
    (h1 : dateLex x y) (h2 : dateLex y z) : dateLex x z := by
  obtain ⟨a1, b1, c1⟩ := x
  obtain ⟨a2, b2, c2⟩ := y
  obtain ⟨a3, b3, c3⟩ := z
  simp only [dateLex] at h1 h2 ⊢
  omega

instance : DecidableRel dateLex := fun x y => by
  obtain ⟨a1, b1, c1⟩ := x
  obtain ⟨a2, b2, c2⟩ := y
  simp only [dateLex]
  infer_instance

/-- The row order of `sort_values("DateofTermination", ascending=False)`:
later dates first; missing dates (`NaT`, default `na_position="last"`) after
every dated row. -/
def recentOrder (a b : EmployeeRecord) : Prop :=
  match a.terminationDate, b.terminationDate with
  | some x, some y => dateLex y x
  | some _, none => True
  | none, some _ => False
  | none, none => True

instance : DecidableRel recentOrder := fun a b => by
  unfold recentOrder
  cases a.terminationDate <;> cases b.terminationDate <;> infer_instance

instance : IsTotal EmployeeRecord recentOrder :=
  ⟨fun a b => by
    unfold recentOrder
    cases a.terminationDate <;> cases b.terminationDate <;>
      first
        | exact Or.inl trivial
        | exact Or.inr trivial
        | exact (dateLex_total _ _).symm.imp id id⟩

instance : IsTrans EmployeeRecord recentOrder :=
  ⟨fun a b c h1 h2 => by
    unfold recentOrder at h1 h2 ⊢
    cases ha : a.terminationDate <;> cases hb : b.terminationDate <;>
      cases hc : c.terminationDate <;>
        rw [ha, hb] at h1 <;> rw [hb, hc] at h2 <;>
          first
            | trivial
            | exact h1.elim
            | exact h2.elim
            | exact dateLex_trans _ _ _ h2 h1⟩

/-- One displayed table row (`Employee_Name`, `Department`, `TermReason`,
formatted `DateofTermination`, `ManagerName`). -/
structure TermRow where
  employeeName : String
  department : String
  termReason : String
  dateofTermination : Option String
  managerName : String
deriving DecidableEq

/-- Two-digit zero padding of `strftime`. -/
def pad2 (n : Nat) : String :=
  if n < 10 then "0" ++ toString n else toString n

/-- Four-digit zero padding of `strftime("%Y")`. -/
def pad4 (n : Nat) : String :=
  if n < 10 then "000" ++ toString n
  else if n < 100 then "00" ++ toString n
  else if n < 1000 then "0" ++ toString n
  else toString n

/-- Formatting `strftime("%Y-%m-%d")` on a present date. -/
def fmtDate (d : Int × Nat × Nat) : String :=
  pad4 d.1.toNat ++ "-" ++ pad2 d.2.1 ++ "-" ++ pad2 d.2.2

/-- Projection of one slice record to its table row (a missing date stays
missing: `NaT.strftime` gives `NaN`). -/
def projectRow (r : EmployeeRecord) : TermRow :=
  { employeeName := r.employeeName, department := r.department,
    termReason := r.termReason,
    dateofTermination := r.terminationDate.map fmtDate,
    managerName := r.managerName }

/-- Sorted slice `dff_term.sort_values("DateofTermination", ascending=False)`. -/
def recent_sorted (ds : List EmployeeRecord) (fs : FilterSpec) : List EmployeeRecord :=
  List.insertionSort recentOrder (dff_term ds fs)

/-- Output `table_data`: the sorted slice's first 10 rows (`head(10)`), dates
formatted, five columns projected; `[]` when the slice is empty. -/
def table_data (ds : List EmployeeRecord) (fs : FilterSpec) : List TermRow :=
  if dff_term ds fs = [] then []
  else ((recent_sorted ds fs).take 10).map projectRow

/-! ### Claims C6, C10, C7 -/

/-- Claim C6.  The recent-terminations table has at most 10 rows, drawn from
the narrowed terminated slice sorted by termination date descending with
missing dates after all dated records, each row the five-column projection
(with the date ISO-formatted); an empty slice yields an empty table. -/
theorem c6_recent_table (ds : List EmployeeRecord) (fs : FilterSpec) :
    (table_data ds fs).length ≤ 10 ∧
    table_data ds fs = ((recent_sorted ds fs).take 10).map projectRow ∧
    List.Sorted recentOrder ((recent_sorted ds fs).take 10) ∧
    List.Pairwise (fun a b => a.terminationDate = none → b.terminationDate = none)
      ((recent_sorted ds fs).take 10) ∧
    (∀ row ∈ table_data ds fs, ∃ r ∈ dff_term ds fs, row = projectRow r) ∧
    (dff_term ds fs = [] → table_data ds fs = []) := by
  have heq : table_data ds fs = ((recent_sorted ds fs).take 10).map projectRow := by
    unfold table_data
    by_cases h : dff_term ds fs = []
    · rw [if_pos h]
      unfold recent_sorted
      rw [h]
      rfl
    · rw [if_neg h]
  have hsorted : List.Sorted recentOrder ((recent_sorted ds fs).take 10) :=
    List.Pairwise.sublist (List.take_sublist 10 _)
      (List.sorted_insertionSort recentOrder (dff_term ds fs))
  refine ⟨?_, heq, hsorted, ?_, ?_, ?_⟩
  · rw [heq, List.length_map]
    exact List.length_take_le 10 _
  · refine hsorted.imp ?_
    intro a b hab hna
    cases hb : b.terminationDate with
    | none => rfl
    | some y =>
        unfold recentOrder at hab
        rw [hna, hb] at hab
        exact hab.elim
  · intro row hrow
    rw [heq, List.mem_map] at hrow
    obtain ⟨r, hr, hpr⟩ := hrow
    have hr2 : r ∈ recent_sorted ds fs := (List.take_sublist 10 _).mem hr
    have hr3 : r ∈ dff_term ds fs :=
      (List.perm_insertionSort recentOrder (dff_term ds fs)).mem_iff.mp hr2
    exact ⟨r, hr3, hpr.symm⟩
  · intro h
    unfold table_data
    rw [if_pos h]

/-- Claim C6, witness: concrete bound on the example dataset. -/
theorem c6_recent_table_witness :
    (table_data ex3 fsNone).length ≤ 10 ∧ table_data ex3 fsNone
      = ((recent_sorted ex3 fsNone).take 10).map projectRow :=
  ⟨(c6_recent_table ex3 fsNone).1, (c6_recent_table ex3 fsNone).2.1⟩

/-- A terminated record with no termination date (`Termd = 1`,
`DateofTermination = NaT`). -/
def rND : EmployeeRecord :=
  { empID := 9, employeeName := "Noel", department := "A", gender := "M",
    employmentStatus := "Voluntarily Terminated", salary := 40000,
    engagementScore := none, termd := true, terminationDate := none,
    hireYear := some 2012, termReason := "unknown", managerName := "M3" }

/-- A dataset whose only record is terminated but undated. -/
def dsND : List EmployeeRecord := [rND]

/-- A dataset with one dated and one undated terminated record. -/
def dsW : List EmployeeRecord := [rA1, rND]

/-- A filter selection supplying a year range. -/
def fsY : FilterSpec :=
  { departments := [], genders := [], statuses := [],
    yearRange := some (2019, 2021) }

/-- Claim C10, counterexample.  A year range is supplied, yet on a dataset
where NO record has a present termination year the guard `if year_range and
years:` skips the range filter entirely: the undated terminated record stays
in the narrowed slice and appears in the recent-terminations table. -/
theorem c10_counterexample :
    fsY.yearRange = some (2019, 2021) ∧
    rND.termd = true ∧
    rND.terminationDate = none ∧
    dff_term dsND fsY = [rND] ∧
    table_data dsND fsY = [projectRow rND] ∧
    (projectRow rND).dateofTermination = none := by
  exact ⟨rfl, rfl, rfl, by decide, by decide, rfl⟩

/-- Claim C10, amended.  Whenever a year range is supplied AND the dataset
has at least one present termination year (so the guard `if year_range and
years:` fires), every terminated record with a missing termination date is
excluded from the narrowed slice by the range comparison, hence no
terminated-side aggregation input and no table row carries a missing
date. -/
theorem c10_missing_date_excluded (ds : List EmployeeRecord) (fs : FilterSpec)
    (hy : fs.yearRange.isSome = true) (hds : hasTermYears ds = true) :
    (dff_term ds fs).all (fun r => (terminationYear r).isSome) = true ∧
    (table_data ds fs).all (fun row => row.dateofTermination.isSome) = true := by
  have hslice : ∀ r ∈ dff_term ds fs, (terminationYear r).isSome = true := by
    intro r hr
    rcases hyr : fs.yearRange with _ | p
    · rw [hyr] at hy
      exact absurd hy (by simp)
    · obtain ⟨lo, hi⟩ := p
      unfold dff_term at hr
      rw [hyr, hds] at hr
      rw [List.mem_filter] at hr
      rcases hty : terminationYear r with _ | yv
      · rw [hty] at hr
        exact absurd hr.2 (by simp)
      · rfl
  constructor
  · rw [List.all_eq_true]
    intro r hr
    exact hslice r hr
  · rw [List.all_eq_true]
    intro row hrow
    unfold table_data at hrow
    by_cases h : dff_term ds fs = []
    · rw [if_pos h] at hrow
      exact absurd hrow (List.not_mem_nil row)
    · rw [if_neg h, List.mem_map] at hrow
      obtain ⟨r, hr, hpr⟩ := hrow
      have hr2 : r ∈ dff_term ds fs :=
        (List.perm_insertionSort recentOrder (dff_term ds fs)).mem_iff.mp
          ((List.take_sublist 10 _).mem hr)
      have hsome := hslice r hr2
      rw [← hpr]
      unfold projectRow
      unfold terminationYear at hsome
      rcases hd : r.terminationDate with _ | d
      · simp [hd] at hsome
      · rfl

/-- Claim C10 amended, witness: a dataset holding a dated (2020) and an
undated terminated record, with year range 2019–2021 supplied: the narrowed
slice and the table carry only present dates. -/
theorem c10_missing_date_excluded_witness :
    (dff_term dsW fsY).all (fun r => (terminationYear r).isSome) = true ∧
    (table_data dsW fsY).all (fun row => row.dateofTermination.isSome) = true :=
  c10_missing_date_excluded dsW fsY rfl rfl

/-- The narrowed terminated slice of an empty filtered population is
empty. -/
theorem dff_term_of_dff_nil (ds : List EmployeeRecord) (fs : FilterSpec)
    (h : dff ds fs = []) : dff_term ds fs = [] := by
  unfold dff_term
  rw [h]
  simp only [List.filter_nil, ite_self]
  split <;> rfl

/-- Claim C7.  An empty filtered population (in particular an empty dataset)
yields all-zero KPIs and the explicit no-data / empty outputs of every chart
and table — no division by zero is reachable. -/
theorem c7_empty_population (ds : List EmployeeRecord) (fs : FilterSpec)
    (h : dff ds fs = []) :
    total ds fs = 0 ∧ terminated ds fs = 0 ∧ active ds fs = 0 ∧
    attr_rate ds fs = 0 ∧ fig_year ds fs = none ∧ fig_dept ds fs = none ∧
    fig_gender ds fs = none ∧ fig_reason ds fs = none ∧
    table_data ds fs = [] ∧
    salary_table ds fs = [("Active", none), ("Terminated", none)] ∧
    eng_compare ds fs = [] := by
  have htot : total ds fs = 0 := by
    unfold total
    rw [h]
    rfl
  have hterm : dff_term ds fs = [] := dff_term_of_dff_nil ds fs h
  have hact : dff_active ds fs = [] := by
    unfold dff_active
    rw [h]
    rfl
  refine ⟨htot, ?_, ?_, ?_, ?_, ?_, ?_, ?_, ?_, ?_, ?_⟩
  · unfold terminated
    rw [h]
    rfl
  · rw [active, hact]
    rfl
  · unfold attr_rate
    rw [if_neg (by omega)]
  · unfold fig_year
    rw [if_pos (Or.inl h)]
  · unfold fig_dept
    rw [if_pos hterm]
  · unfold fig_gender
    rw [if_pos hterm]
  · unfold fig_reason
    rw [if_pos hterm]
  · unfold table_data
    rw [if_pos hterm]
  · unfold salary_table
    rw [hact, hterm]
    rfl
  · unfold eng_compare engKeys
    rw [hact, hterm]
    rfl

/-- Claim C7, witness: the empty dataset with no filters. -/
theorem c7_empty_population_witness :
    total ([] : List EmployeeRecord) fsNone = 0 ∧
    terminated ([] : List EmployeeRecord) fsNone = 0 ∧
    active ([] : List EmployeeRecord) fsNone = 0 ∧
    attr_rate ([] : List EmployeeRecord) fsNone = 0 ∧
    fig_year ([] : List EmployeeRecord) fsNone = none ∧
    fig_dept ([] : List EmployeeRecord) fsNone = none ∧
    fig_gender ([] : List EmployeeRecord) fsNone = none ∧
    fig_reason ([] : List EmployeeRecord) fsNone = none ∧
    table_data ([] : List EmployeeRecord) fsNone = [] ∧
    salary_table ([] : List EmployeeRecord) fsNone = [("Active", none), ("Terminated", none)] ∧
    eng_compare ([] : List EmployeeRecord) fsNone = [] :=
  c7_empty_population [] fsNone rfl

end AttritionDashboard
